import Mathlib

/-
Verification of the stock-tracker time-series analytics module
(`src/main.rs`): the pure statistics `price_diff`, `n_window_sma`,
`max`, `min`, and the per-symbol report pipeline of `main`.

Prices (Rust `f64`) are modelled as exact rationals `ℚ`; the two
floating-point sentinel constants `f64::MIN` / `f64::MAX` are embedded
at their exact numeric values.  Rust `Option` becomes Lean `Option`;
slices become `List ℚ`.
-/

namespace StockTracker

/-- Price values (Rust `f64`) modelled as exact rationals. -/
abbrev F : Type := ℚ

/-- Exact value of Rust `f64::MAX` = (2 − 2⁻⁵²)·2¹⁰²³ = (2⁵³ − 1)·2⁹⁷¹. -/
def f64MAX : F := ((2 ^ 53 - 1) * 2 ^ 971 : ℤ)

/-- Exact value of Rust `f64::MIN` = −`f64::MAX`. -/
def f64MIN : F := -f64MAX

/-- Embedding of `fn price_diff(a: &[f64]) -> Option<(f64, f64)>`
(src/main.rs lines 22–34): absolute and relative change between the first
and last element of the series.  `a.first().unwrap()` and
`a.last().unwrap()` are reached only under the non-emptiness guard, so
they are modelled by `headD` / `getLastD`. -/
def price_diff (a : List F) : Option (F × F) :=
  if a ≠ [] then
    let first := a.headD 0
    let last := a.getLastD 0
    let diff := last - first
    let first2 := if first = 0 then 1 else first
    let rel_diff := diff / first2
    some (diff, rel_diff)
  else
    none

/-- Embedding of Rust `slice::windows(n)`: all contiguous sub-slices of
length `n`, in order of their start position.  (The Rust method requires
`n ≥ 1`; the only caller passes `n > 1`.)  For `n > len` there are no
windows. -/
def windows (n : ℕ) (s : List F) : List (List F) :=
  (List.range (s.length + 1 - n)).map fun i => (s.drop i).take n

/-- Embedding of `fn n_window_sma(n: usize, series: &[f64]) -> Option<Vec<f64>>`
(src/main.rs lines 39–50): the mean of every `n`-window, present only when
the series is non-empty and `n > 1`. -/
def n_window_sma (n : ℕ) (series : List F) : Option (List F) :=
  if series ≠ [] ∧ 1 < n then
    some ((windows n series).map fun w => w.sum / (w.length : F))
  else
    none

/-- Embedding of `fn max(series: &[f64]) -> Option<f64>`
(src/main.rs lines 55–61): fold of pairwise maximum starting from
`f64::MIN`, absent on the empty series. -/
def max (series : List F) : Option F :=
  if series = [] then
    none
  else
    some (series.foldl (fun acc q => Max.max acc q) f64MIN)

/-- Embedding of `fn min(series: &[f64]) -> Option<f64>`
(src/main.rs lines 66–72): fold of pairwise minimum starting from
`f64::MAX`, absent on the empty series. -/
def min (series : List F) : Option F :=
  if series = [] then
    none
  else
    some (series.foldl (fun acc q => Min.min acc q) f64MAX)

/-- A quote as consumed by `main`: only `timestamp` (the sort key) and
`adjclose` (the projected price) matter to the pipeline. -/
structure Quote where
  timestamp : ℕ
  adjclose : F
  deriving DecidableEq

/-- Outcome of fetching and parsing quotes for one symbol, as `main`
distinguishes them: `provider.get_quote_history(...)` returning `Err`
(`fetchErr`), `response.quotes()` returning `Err` (`parseErr`), or a
parsed quote list (`quotes`, possibly empty). -/
inductive FetchResult where
  | fetchErr : FetchResult
  | parseErr : FetchResult
  | quotes : List Quote → FetchResult
  deriving DecidableEq

/-- One emitted CSV data row, holding the printed field values of the
`println!` call in `main` (src/main.rs lines 101–110); `change_pct`
stores `pct_change * 100.0` as printed. -/
structure Row where
  period_start : String
  symbol : String
  last_price : F
  change_pct : F
  min_period : F
  max_period : F
  sma_trailing : F
  deriving DecidableEq

/-- The diagnostic written to stderr for a failed symbol
(src/main.rs lines 115 and 119): the text `No quotes found` followed by
the symbol wrapped in U+0027 quote characters. -/
def noQuotesMsg (symbol : String) : String :=
  "No quotes found " ++ String.singleton (Char.ofNat 39) ++ symbol
    ++ String.singleton (Char.ofNat 39)

/-- Helper for the embedding of `quotes.sort_by_cached_key(|k| k.timestamp)`:
insert a quote before the first element with a larger-or-equal timestamp. -/
def insertByTimestamp (q : Quote) : List Quote → List Quote
  | [] => [q]
  | x :: xs =>
      if q.timestamp ≤ x.timestamp then q :: x :: xs
      else x :: insertByTimestamp q xs

/-- Embedding of `quotes.sort_by_cached_key(|k| k.timestamp)`: a stable
insertion sort ascending by timestamp. -/
def sortQuotes (qs : List Quote) : List Quote :=
  qs.foldr insertByTimestamp []

/-- The projected close series `closes` built in `main` from a parsed
quote list: sort by timestamp, then map to `adjclose`. -/
def closesOf (qs : List Quote) : List F :=
  (sortQuotes qs).map Quote.adjclose

/-- Embedding of the `Ok(mut quotes)` branch of `main`
(src/main.rs lines 88–112): on a non-empty quote list, sort, project to
closes, compute the statistics and emit one row; on an empty quote list,
do nothing (no row, no diagnostic).  The `max(&closes).unwrap()` and
`min(&closes).unwrap()` calls are modelled by `Option.getD 0`; they are
reached only with `closes` non-empty, where both options are `some`
(proved below), so the default is never taken. -/
def processQuotes (fromStr symbol : String) (qs : List Quote) :
    Option Row × List String :=
  if qs = [] then
    (none, [])
  else
    let closes := closesOf qs
    if closes = [] then
      (none, [])
    else
      let max_period := (max closes).getD 0
      let min_period := (min closes).getD 0
      let last_price := closes.getLast?.getD 0
      let pct_change := ((price_diff closes).getD (0, 0)).2
      let sma := (n_window_sma 30 closes).getD []
      (some { period_start := fromStr
              symbol := symbol
              last_price := last_price
              change_pct := pct_change * 100
              min_period := min_period
              max_period := max_period
              sma_trailing := sma.getLast?.getD 0 }, [])

/-- Embedding of one iteration of the symbol loop in `main`
(src/main.rs lines 85–121): fetch failure and parse failure each write
one `No quotes found` diagnostic and emit no row; a parsed quote list is
handled by `processQuotes`. -/
def processSymbol (fromStr symbol : String) (res : FetchResult) :
    Option Row × List String :=
  match res with
  | FetchResult.fetchErr => (none, [noQuotesMsg symbol])
  | FetchResult.parseErr => (none, [noQuotesMsg symbol])
  | FetchResult.quotes qs => processQuotes fromStr symbol qs

/-- Embedding of the whole symbol loop: each symbol is processed in
order, its optional row appended to stdout and its diagnostics to
stderr, independently of every other symbol. -/
def runPipeline (fromStr : String) (inputs : List (String × FetchResult)) :
    List Row × List String :=
  match inputs with
  | [] => ([], [])
  | p :: rest =>
      let hd := processSymbol fromStr p.1 p.2
      let tl := runPipeline fromStr rest
      (hd.1.toList ++ tl.1, hd.2 ++ tl.2)

/-- Embedding of `main` (src/main.rs lines 74–124): parsing the `from`
date is external (chrono) and is modelled as an `Option String` input.
`opts.from.parse().expect(...)` aborts the run when parsing fails
(`Except.error`); otherwise the pipeline runs to completion and `main`
returns `Ok(())` unconditionally. -/
def runMain (fromDate : Option String) (inputs : List (String × FetchResult)) :
    Except Unit (List Row × List String) :=
  match fromDate with
  | none => Except.error ()
  | some f => Except.ok (runPipeline f inputs)

/-- Inserting one quote grows the list by exactly one element. -/
theorem length_insertByTimestamp (q : Quote) (l : List Quote) :
    (insertByTimestamp q l).length = l.length + 1 := by
  induction l with
  | nil => rfl
  | cons x xs ih =>
      by_cases h : q.timestamp ≤ x.timestamp <;>
        simp [insertByTimestamp, h, ih]

/-- Sorting preserves the number of quotes. -/
theorem length_sortQuotes (qs : List Quote) :
    (sortQuotes qs).length = qs.length := by
  induction qs with
  | nil => rfl
  | cons q rest ih =>
      simp only [sortQuotes, List.foldr_cons] at ih ⊢
      rw [length_insertByTimestamp, ih, List.length_cons]

/-- The projected close series of a non-empty quote list is non-empty. -/
theorem closesOf_ne_nil (qs : List Quote) (h : qs ≠ []) :
    closesOf qs ≠ [] := by
  intro hc
  apply h
  have hlen : (closesOf qs).length = qs.length := by
    simp [closesOf, length_sortQuotes]
  rw [hc] at hlen
  exact List.length_eq_zero.mp hlen.symm

/-- Claim C1: for every non-empty price series `s` of length `L` and every
window size `n` with `1 < n ≤ L`, `n_window_sma n s` returns a present
sequence of exactly `L − n + 1` values, and the value at position `i` is
the arithmetic mean of the `n` consecutive elements of `s` starting at
position `i` (so the values follow the order of the window start
positions). -/
theorem C1_sma_window_values (s : List F) (n : ℕ) (hne : s ≠ [])
    (h1 : 1 < n) (hle : n ≤ s.length) :
    ∃ l, n_window_sma n s = some l ∧ l.length = s.length - n + 1 ∧
      ∀ i, ∀ hi : i < l.length,
        l.get ⟨i, hi⟩ = ((s.drop i).take n).sum / (n : F) := by
  refine ⟨(windows n s).map fun w => w.sum / (w.length : F), ?_, ?_, ?_⟩
  · simp [n_window_sma, hne, h1]
  · simp only [windows, List.length_map, List.length_range]
    omega
  · intro i hi
    have hilt : i < s.length + 1 - n := by
      simpa [windows] using hi
    have hw : ((s.drop i).take n).length = n := by
      simp only [List.length_take, List.length_drop]
      omega
    simp only [windows, List.get_eq_getElem, List.getElem_map,
      List.getElem_range, hw]

/-- Claim C1 witness: the instantiation at `s = [1, 2, 3]`, `n = 2`. -/
theorem C1_sma_window_values_witness :
    ∃ l, n_window_sma 2 [(1 : F), 2, 3] = some l ∧
      l.length = [(1 : F), 2, 3].length - 2 + 1 ∧
      ∀ i, ∀ hi : i < l.length,
        l.get ⟨i, hi⟩ = (([(1 : F), 2, 3].drop i).take 2).sum / (2 : F) :=
  C1_sma_window_values [1, 2, 3] 2 (by simp) (by norm_num) (by simp)

/-- Claim C2 counterexample: a symbol whose fetch succeeds with zero
quotes produces NO diagnostic at all — the `Ok` branch of `main` only
checks `!quotes.is_empty()` and silently does nothing when the list is
empty, so the claimed single `No quotes found` line is not written. -/
theorem C2_counterexample :
    ¬ ((processSymbol "2024-01-01" "UBER" (FetchResult.quotes [])).2.length = 1) := by
  simp [processSymbol, processQuotes]

/-- Claim C2 (amended): a symbol whose fetch succeeds but returns zero
quotes emits no data row and writes NO diagnostic line; only a fetch
failure or a parse failure writes the single diagnostic
`No quotes found <symbol>`. -/
theorem C2_empty_quotes_silent (fromStr symbol : String) :
    processSymbol fromStr symbol (FetchResult.quotes []) = (none, []) ∧
    processSymbol fromStr symbol FetchResult.fetchErr =
      (none, [noQuotesMsg symbol]) ∧
    processSymbol fromStr symbol FetchResult.parseErr =
      (none, [noQuotesMsg symbol]) := by
  refine ⟨by simp [processSymbol, processQuotes], rfl, rfl⟩

/-- Claim C3: on every non-empty series, `price_diff` returns the pair
`(absolute, relative)` with `absolute = last − first` and
`relative = absolute / d`, where `d = 1` when the first element is `0`
and `d = first` otherwise; concretely `price_diff [0, 10] = (10, 10)`
and `price_diff [5, 10] = (5, 1)`. -/
theorem C3_price_diff_change (a : List F) (h : a ≠ []) :
    price_diff a =
      some (a.getLastD 0 - a.headD 0,
        (a.getLastD 0 - a.headD 0) /
          (if a.headD 0 = 0 then 1 else a.headD 0)) ∧
    price_diff [(0 : F), 10] = some (10, 10) ∧
    price_diff [(5 : F), 10] = some (5, 1) := by
  refine ⟨by simp [price_diff, h], ?_, ?_⟩
  · norm_num [price_diff]
    simp
  · norm_num [price_diff]
    simp

/-- Claim C3 witness: the instantiation at `a = [5, 10]`. -/
theorem C3_price_diff_change_witness :
    price_diff [(5 : F), 10] = some (5, 1) :=
  (C3_price_diff_change [5, 10] (by simp)).2.2

/-- Claim C4: `n_window_sma` is absent exactly when the series is empty
or `n ≤ 1`; for a non-empty series shorter than the window (`n > 1`,
`L < n`) the result is present and equal to the empty sequence. -/
theorem C4_sma_absent_vs_empty (s : List F) (n : ℕ) :
    ((n_window_sma n s).isNone ↔ (s = [] ∨ n ≤ 1)) ∧
    (s ≠ [] → 1 < n → s.length < n → n_window_sma n s = some []) := by
  constructor
  · by_cases hs : s = []
    · simp [n_window_sma, hs]
    · by_cases hn : 1 < n
      · simp [n_window_sma, hs, hn]
      · simp [n_window_sma, hs, hn]
        omega
  · intro h1 h2 h3
    have hz : s.length + 1 - n = 0 := by omega
    simp [n_window_sma, h1, h2, windows, hz]

/-- Claim C4 witness: a one-element series with window `2` yields the
present empty sequence. -/
theorem C4_sma_absent_vs_empty_witness :
    n_window_sma 2 [(1 : F)] = some [] :=
  (C4_sma_absent_vs_empty [1] 2).2 (by simp) (by norm_num) (by simp)

/-- Claim C5: on the empty series, `price_diff`, `max` and `min` are all
absent, and `n_window_sma` is absent for every window size `n`. -/
theorem C5_empty_series_absent (n : ℕ) :
    price_diff ([] : List F) = none ∧
    max ([] : List F) = none ∧
    min ([] : List F) = none ∧
    n_window_sma n ([] : List F) = none := by
  refine ⟨rfl, rfl, rfl, ?_⟩
  simp [n_window_sma]

/-- Claim C6: on every non-empty series, `max` is the fold of pairwise
maximum started from `f64::MIN` and `min` the fold of pairwise minimum
started from `f64::MAX`; an all-negative series yields its true maximum,
and concretely `max [3, -1, 7, 2] = 7`, `min [3, -1, 7, 2] = -1`. -/
theorem C6_max_min_fold (s : List F) (h : s ≠ []) :
    max s = some (s.foldl (fun acc q => Max.max acc q) f64MIN) ∧
    min s = some (s.foldl (fun acc q => Min.min acc q) f64MAX) ∧
    max [(3 : F), -1, 7, 2] = some 7 ∧
    min [(3 : F), -1, 7, 2] = some (-1) ∧
    max [(-3 : F), -1, -7] = some (-1) := by
  refine ⟨by simp [max, h], by simp [min, h], ?_, ?_, ?_⟩
  · norm_num [max, f64MIN, f64MAX, max_def]
    simp
  · norm_num [min, f64MIN, f64MAX, min_def]
    simp
  · norm_num [max, f64MIN, f64MAX, max_def]
    simp

/-- Claim C6 witness: the concrete maximum `max [3, -1, 7, 2] = 7`,
obtained from the instantiation at `s = [3, -1, 7, 2]`. -/
theorem C6_max_min_fold_witness :
    max [(3 : F), -1, 7, 2] = some 7 :=
  (C6_max_min_fold [3, -1, 7, 2] (by simp)).2.2.1

/-- Claim C7: for every symbol succeeding with non-empty quotes, the
emitted row's trailing-SMA field is the last element of
`n_window_sma 30 closes`, or `0` when that result is absent or empty;
on the two-quote series `[(1, 100), (2, 110)]` the row is
`price = 110`, `change % = 10`, `min = 100`, `max = 110`,
`30d avg = 0` (series length 2 < window 30). -/
theorem C7_trailing_sma_row (fromStr symbol : String) (qs : List Quote)
    (h : qs ≠ []) :
    (∃ row, processSymbol fromStr symbol (FetchResult.quotes qs) =
        (some row, []) ∧
      row.sma_trailing =
        (match n_window_sma 30 (closesOf qs) with
         | none => 0
         | some l => l.getLastD 0)) ∧
    processSymbol "T" "A" (FetchResult.quotes [⟨1, 100⟩, ⟨2, 110⟩]) =
      (some { period_start := "T", symbol := "A", last_price := 110,
              change_pct := 10, min_period := 100, max_period := 110,
              sma_trailing := 0 }, []) := by
  constructor
  · have hc : closesOf qs ≠ [] := closesOf_ne_nil qs h
    refine ⟨{ period_start := fromStr
              symbol := symbol
              last_price := (closesOf qs).getLast?.getD 0
              change_pct := ((price_diff (closesOf qs)).getD (0, 0)).2 * 100
              min_period := (min (closesOf qs)).getD 0
              max_period := (max (closesOf qs)).getD 0
              sma_trailing :=
                ((n_window_sma 30 (closesOf qs)).getD []).getLast?.getD 0 },
            ?_, ?_⟩
    · simp [processSymbol, processQuotes, h, hc]
    · cases hsma : n_window_sma 30 (closesOf qs) <;>
        simp [hsma, List.getLastD_eq_getLast?]
  · norm_num [processSymbol, processQuotes, closesOf, sortQuotes,
      insertByTimestamp, max, min, price_diff, n_window_sma, windows,
      f64MIN, f64MAX, max_def, min_def, List.range_succ]
    simp
    norm_num

/-- Claim C7 witness: the end-to-end two-quote run, obtained from the
instantiation at `qs = [(1, 100), (2, 110)]`. -/
theorem C7_trailing_sma_row_witness :
    processSymbol "T" "A" (FetchResult.quotes [⟨1, 100⟩, ⟨2, 110⟩]) =
      (some { period_start := "T", symbol := "A", last_price := 110,
              change_pct := 10, min_period := 100, max_period := 110,
              sma_trailing := 0 }, []) :=
  (C7_trailing_sma_row "T" "A" [⟨1, 100⟩, ⟨2, 110⟩] (by simp)).2

/-- Claim C8: per-symbol failures are fully isolated: the emitted rows
are exactly the per-symbol rows in input order (`filterMap`), a
row-less symbol prefixed to the input leaves the remaining rows
unchanged, and with a well-formed `from` date the run always finishes
successfully (`Except.ok`) whatever the per-symbol outcomes. -/
theorem C8_failure_isolation (fromStr : String)
    (inputs : List (String × FetchResult)) (sym : String)
    (res : FetchResult) :
    (runPipeline fromStr inputs).1 =
      inputs.filterMap (fun p => (processSymbol fromStr p.1 p.2).1) ∧
    ((processSymbol fromStr sym res).1 = none →
      (runPipeline fromStr ((sym, res) :: inputs)).1 =
        (runPipeline fromStr inputs).1) ∧
    runMain (some fromStr) inputs =
      Except.ok (runPipeline fromStr inputs) := by
  refine ⟨?_, ?_, rfl⟩
  · induction inputs with
    | nil => rfl
    | cons p rest ih =>
        cases hp : (processSymbol fromStr p.1 p.2).1 <;>
          simp [runPipeline, List.filterMap_cons, hp, ih]
  · intro hnone
    simp [runPipeline, hnone]

/-- Claim C8 witness: a failing symbol `B` prefixed to a successful
symbol `A` leaves the rows of `A` unchanged. -/
theorem C8_failure_isolation_witness :
    (runPipeline "T" (("B", FetchResult.fetchErr) ::
        [("A", FetchResult.quotes [⟨1, 100⟩])])).1 =
      (runPipeline "T" [("A", FetchResult.quotes [⟨1, 100⟩])]).1 :=
  (C8_failure_isolation "T" [("A", FetchResult.quotes [⟨1, 100⟩])] "B"
    FetchResult.fetchErr).2.1 rfl

/-- Claim C9: on every one-element series `[x]`, `price_diff` is present
and equal to `(0, 0)`: the absolute change is `x − x = 0` and the
relative change `0 / d = 0` for either denominator, even when `x = 0`. -/
theorem C9_singleton_zero_change (x : F) :
    price_diff [x] = some (0, 0) := by
  simp [price_diff]

/-- Claim C10: the unconditional unwraps of `max` and `min` in `main`
never fail: for every non-empty quote list, the projected close series
is non-empty (it has one element per quote), so `max closes` and
`min closes` are both present at the point they are unwrapped. -/
theorem C10_unwrap_safe (qs : List Quote) (h : qs ≠ []) :
    closesOf qs ≠ [] ∧ (closesOf qs).length = qs.length ∧
    (max (closesOf qs)).isSome = true ∧
    (min (closesOf qs)).isSome = true := by
  have hc : closesOf qs ≠ [] := closesOf_ne_nil qs h
  exact ⟨hc, by simp [closesOf, length_sortQuotes],
    by simp [max, hc], by simp [min, hc]⟩

/-- Claim C10 witness: the instantiation at the one-quote list
`[(1, 100)]`. -/
theorem C10_unwrap_safe_witness :
    closesOf [⟨1, 100⟩] ≠ [] ∧
    (closesOf [⟨1, 100⟩]).length = [(⟨1, 100⟩ : Quote)].length ∧
    (max (closesOf [⟨1, 100⟩])).isSome = true ∧
    (min (closesOf [⟨1, 100⟩])).isSome = true :=
  C10_unwrap_safe [⟨1, 100⟩] (by simp)

end StockTracker
